import Mathlib

/-!
Verification of the geospatial core of the Deutsche-Scholle garden-plot
locator: the TTL cache (src/utils/cache.ts), the geometry toolkit
(src/utils/osm.ts, src/utils/mapHelpers.ts), the resilient Overpass query
client (fetchOverpassAPI) and the plot-resolution service
(searchGardenByNumber, loadAllGardens and their WithUpdate variants,
osmWayToGarden).

Modelling conventions.  JavaScript numbers are modelled as exact rationals;
the transcendental library functions the code calls (Math.sin, Math.cos,
Math.log2, Math.PI) are packaged as an uninterpreted parameter structure
JSMath, so every theorem quantifies over their interpretation and in
particular holds for the real ones.  Math.round is JS rounding half toward
positive infinity.  localStorage is an association list from keys to typed
cache entries (serialisation is skipped); Date.now() values are passed as
explicit integer timestamps.  Asynchronous control flow is sequentialised:
each network round trip is a value of type Except carrying either the parsed
response or an error, and each cache read gets its own timestamp.
-/

namespace Scholle

/-- The transcendental functions and constants of the JS Math library,
kept abstract: theorems hold for every interpretation. -/
structure JSMath where
  sin : ℚ → ℚ
  cos : ℚ → ℚ
  log2 : ℚ → ℚ
  pi : ℚ

/-- Math.round on a JS number: round half toward positive infinity. -/
def jsRound (q : ℚ) : ℤ := ⌊q + 1/2⌋

/-- A latitude/longitude pair as exchanged with Overpass. -/
structure Point where
  lat : ℚ
  lon : ℚ
deriving DecidableEq, Repr

/-- Default point for total indexing. -/
def pzero : Point := ⟨0, 0⟩

/-- Math.min over a spread nonempty argument list (from `Math.min(...lats)`). -/
def listMin : List ℚ → ℚ
  | [] => 0
  | a :: l => l.foldl min a

/-- Math.max over a spread nonempty argument list (from `Math.max(...lats)`). -/
def listMax : List ℚ → ℚ
  | [] => 0
  | a :: l => l.foldl max a

/-! ## Geometry toolkit (src/utils/osm.ts lines 633-681, mapHelpers.ts) -/

/-- Earth radius in metres, `const R = 6371000` in calculatePolygonArea. -/
def R : ℚ := 6371000

/-- One summand of the spherical-excess loop of calculatePolygonArea:
`(lon2 - lon1) * (2 + Math.sin(lat1) + Math.sin(lat2))` with the four
coordinates already converted to radians by `* Math.PI / 180`. -/
def edgeTerm (M : JSMath) (p q : Point) : ℚ :=
  (q.lon * M.pi / 180 - p.lon * M.pi / 180) *
    (2 + M.sin (p.lat * M.pi / 180) + M.sin (q.lat * M.pi / 180))

/-- The closing step of calculatePolygonArea: `coords = [...geometry]` and a
copy of the first vertex is pushed when first and last differ in lat or lon. -/
def closeRing (geometry : List Point) : List Point :=
  let h := geometry.headD pzero
  let l := geometry.getLastD pzero
  if h.lat = l.lat ∧ h.lon = l.lon then geometry else geometry ++ [h]

/-- The accumulation loop of calculatePolygonArea:
`for (i = 0; i < coords.length - 1; i++) { j = (i+1) % (coords.length-1); area += ... }`. -/
def ringSum (M : JSMath) (coords : List Point) : ℚ :=
  (List.range (coords.length - 1)).foldl
    (fun acc i =>
      acc + edgeTerm M (coords.getD i pzero)
        (coords.getD ((i + 1) % (coords.length - 1)) pzero)) 0

/-- calculatePolygonArea (osm.ts 633-681): spherical-excess polygon area in
square metres, with the planar bounding-box fallback when the spherical value
is below 1, and 0 for fewer than 3 vertices. -/
def calculatePolygonArea (M : JSMath) (geometry : List Point) : ℤ :=
  if geometry.length < 3 then 0
  else
    let coords := closeRing geometry
    let sphericalArea := |ringSum M coords * R * R / 2|
    if sphericalArea < 1 then
      let lats := geometry.map (·.lat)
      let lons := geometry.map (·.lon)
      let minLat := listMin lats
      let maxLat := listMax lats
      let minLon := listMin lons
      let maxLon := listMax lons
      let latDiff := (maxLat - minLat) * M.pi / 180
      let lonDiff := (maxLon - minLon) * M.pi / 180
      let avgLat := ((minLat + maxLat) / 2) * M.pi / 180
      jsRound (R * R * latDiff * lonDiff * M.cos avgLat)
    else jsRound sphericalArea

/-- Cyclic edge sum used in proofs: the sum of edgeTerm over the pairs
(l[i], l[(i+1) mod n]) for i < n.  The code loop ringSum is bridged to this
form below. -/
def cyclicSum (M : JSMath) (l : List Point) : ℚ :=
  ∑ i ∈ Finset.range l.length,
    edgeTerm M (l.getD i pzero) (l.getD ((i + 1) % l.length) pzero)

/-- calculateOptimalZoom (mapHelpers.ts 16-51): integer zoom at which a
bounding box fits a viewport, with cos(latitude) correction on the longitude
term, floored and clamped to [10, 22].  Bounds are [[minLat, minLon],
[maxLat, maxLon]]. -/
def calculateOptimalZoom (M : JSMath) (bounds : Point × Point)
    (mapWidth mapHeight padding : ℚ) : ℚ :=
  let minLat := bounds.1.lat
  let minLon := bounds.1.lon
  let maxLat := bounds.2.lat
  let maxLon := bounds.2.lon
  let availableWidth := mapWidth - padding * 2
  let availableHeight := mapHeight - padding * 2
  let latDiff := maxLat - minLat
  let lonDiff := maxLon - minLon
  let centerLat := (minLat + maxLat) / 2
  let worldSize : ℚ := 256
  let latZoom := M.log2 ((availableHeight * 360) / (latDiff * worldSize))
  let lonZoom := M.log2
    ((availableWidth * 360) / (lonDiff * worldSize * M.cos ((centerLat * M.pi) / 180)))
  let optimalZoom : ℚ := (⌊min latZoom lonZoom⌋ : ℤ)
  max 10 (min 22 optimalZoom)

/-- isValidCoordinate (mapHelpers.ts 128-139).  The typeof and Number.isNaN
guards of the source have no counterpart on exact rationals (no NaN value
exists in the model), leaving the range checks. -/
def isValidCoordinate (lat lon : ℚ) : Bool :=
  decide (-90 ≤ lat) && decide (lat ≤ 90) && decide (-180 ≤ lon) && decide (lon ≤ 180)

/-- calculateGeometryCenter (mapHelpers.ts 144-156): filters invalid points,
returns null on empty or all-invalid input, else the arithmetic mean. -/
def calculateGeometryCenter (geometry : List Point) : Option Point :=
  if geometry.length = 0 then none
  else
    let validPoints := geometry.filter fun p => isValidCoordinate p.lat p.lon
    if validPoints.length = 0 then none
    else some ⟨(validPoints.foldl (fun sum p => sum + p.lat) 0) / validPoints.length,
               (validPoints.foldl (fun sum p => sum + p.lon) 0) / validPoints.length⟩

/-! ## TTL cache (src/utils/cache.ts) -/

/-- CacheEntry (cache.ts 9-13): payload with creation timestamp and TTL in
milliseconds. -/
structure CacheEntry (α : Type) where
  data : α
  timestamp : ℤ
  ttl : ℤ
deriving DecidableEq, Repr

/-- localStorage restricted to the cache namespace: an association list from
full (prefixed) keys to entries, newest first. -/
abbrev Storage (α : Type) := List (String × CacheEntry α)

/-- `const CACHE_PREFIX = 'osm_cache_'` (cache.ts 6). -/
def CACHE_PREFIX : String := "osm_cache_"

/-- localStorage.getItem on the model store. -/
def storeGet {α : Type} (st : Storage α) (k : String) : Option (CacheEntry α) :=
  (st.find? fun e => e.1 = k).map (·.2)

/-- localStorage.removeItem on the model store. -/
def storeRemove {α : Type} (st : Storage α) (k : String) : Storage α :=
  st.filter fun e => ¬ (e.1 = k)

/-- localStorage.setItem on the model store: a write fully replaces any
previous entry under the same key. -/
def storeSet {α : Type} (st : Storage α) (k : String) (v : CacheEntry α) : Storage α :=
  (k, v) :: storeRemove st k

/-- isCacheValid (cache.ts 18-22): an entry is valid while
`now - entry.timestamp < entry.ttl`; null is invalid.  Date.now() is the
explicit argument now. -/
def isCacheValid {α : Type} (now : ℤ) (entry : Option (CacheEntry α)) : Bool :=
  match entry with
  | none => false
  | some e => decide (now - e.timestamp < e.ttl)

/-- getFromCache (cache.ts 27-45): returns the payload of a valid entry;
an expired entry is removed and the read reports null.  The returned store
is the storage state after the call. -/
def getFromCache {α : Type} (st : Storage α) (now : ℤ) (key : String) :
    Option α × Storage α :=
  match storeGet st (CACHE_PREFIX ++ key) with
  | none => (none, st)
  | some entry =>
    if isCacheValid now (some entry) then (some entry.data, st)
    else (none, storeRemove st (CACHE_PREFIX ++ key))

/-- setCache (cache.ts 50-75) on the normal path: store the payload with the
current timestamp.  The quota-exceeded retry path is not modelled (the model
store never fails). -/
def setCache {α : Type} (st : Storage α) (now : ℤ) (key : String) (data : α)
    (ttl : ℤ) : Storage α :=
  storeSet st (CACHE_PREFIX ++ key) ⟨data, now, ttl⟩

/-! ## OSM data model and plot-resolution service (src/utils/osm.ts) -/

/-- OSMWay (osm.ts 38-46): way id, node ids, optional geometry, tag map. -/
structure OSMWay where
  id : ℤ
  nodes : List ℤ
  geometry : Option (List Point)
  tags : List (String × String)
deriving DecidableEq, Repr

/-- OSMResponse (osm.ts 48-50). -/
structure OSMResponse where
  elements : List OSMWay
deriving DecidableEq, Repr

/-- Tag access `way.tags.k` on the modelled tag map. -/
def tagLookup (tags : List (String × String)) (k : String) : Option String :=
  (tags.find? fun e => e.1 = k).map (·.2)

/-- The JS string expression `a || b`: the left operand unless it is absent
or empty (falsy). -/
def jsOrString (a : Option String) (b : String) : String :=
  match a with
  | some s => if s = "" then b else s
  | none => b

/-- The JS number expression `a || b`: the left operand unless it is absent
or 0 (falsy). -/
def jsOrNum (a : Option ℚ) (b : ℚ) : ℚ :=
  match a with
  | some q => if q = 0 then b else q
  | none => b

/-- CacheKeys.GARDEN (cache.ts 125). -/
def gardenKey (gardenNumber : String) : String := "garden_" ++ gardenNumber

/-- CacheKeys.ALL_GARDENS (cache.ts 124). -/
def ALL_GARDENS : String := "all_gardens"

/-- searchGardenByNumber (osm.ts 455-499), sequentialised.  now1 is the
Date.now() of the leading cache read, now2 that of the write or of the
catch-path cache read; fetchResult is the outcome the network layer would
deliver (Except.error covers both a raised aggregated failure and a JSON
parse failure).  Returns the delivered value and the storage state left
behind. -/
def searchGardenByNumber (st : Storage OSMWay) (now1 now2 : ℤ)
    (gardenNumber : String) (forceRefresh : Bool)
    (fetchResult : Except String OSMResponse) : Option OSMWay × Storage OSMWay :=
  let key := gardenKey gardenNumber
  let read := if forceRefresh then (none, st) else getFromCache st now1 key
  match read.1 with
  | some cached => (some cached, read.2)
  | none =>
    let st1 := read.2
    match fetchResult with
    | .ok data =>
      match data.elements with
      | [] => (none, st1)
      | e0 :: _ =>
        let result :=
          (data.elements.find? fun el => tagLookup el.tags "ref" = some gardenNumber).getD e0
        (some result, setCache st1 now2 key result (2 * 60 * 60 * 1000))
    | .error _ =>
      let stale := getFromCache st1 now2 key
      match stale.1 with
      | some s => (some s, stale.2)
      | none => (none, stale.2)

/-- The changed-data check of searchGardenByNumberWithUpdate (osm.ts 528-533):
the callback fires for a present fresh result when there was no snapshot or
the id or the geometry (deep JSON comparison) differs, and fires with null
when a previously present snapshot disappears. -/
def singleUpdateFires (cached updated : Option OSMWay) : Bool :=
  match updated, cached with
  | some _, none => true
  | some u, some c => decide (c.id ≠ u.id) || decide (c.geometry ≠ u.geometry)
  | none, some _ => true
  | none, none => false

/-- searchGardenByNumberWithUpdate (osm.ts 513-542), sequentialised: the
foreground cache read happens at now0, the background refresh performs its
own cache read at now1 and its write or catch-path read at now2.  Returns
the immediately returned snapshot, whether the callback fired, and the value
it was called with. -/
def searchGardenByNumberWithUpdate (st : Storage OSMWay) (now0 now1 now2 : ℤ)
    (gardenNumber : String) (fetchResult : Except String OSMResponse) :
    Option OSMWay × Bool × Option (Option OSMWay) :=
  let read := getFromCache st now0 (gardenKey gardenNumber)
  let cached := read.1
  let background := searchGardenByNumber read.2 now1 now2 gardenNumber false fetchResult
  let fired := singleUpdateFires cached background.1
  (cached, fired, if fired then some background.1 else none)

/-- loadAllGardens (osm.ts 549-590), sequentialised like
searchGardenByNumber.  A cached empty list does not count as a hit, and an
empty successful fetch is not written back. -/
def loadAllGardens (st : Storage (List OSMWay)) (now1 now2 : ℤ)
    (forceRefresh : Bool) (fetchResult : Except String OSMResponse) :
    List OSMWay × Storage (List OSMWay) :=
  let read := if forceRefresh then (none, st) else getFromCache st now1 ALL_GARDENS
  match read.1 with
  | some cached =>
    if cached.length > 0 then (cached, read.2)
    else loadAllGardensFetch read.2 now2 fetchResult
  | none => loadAllGardensFetch read.2 now2 fetchResult
where
  /-- The fetch-or-stale tail of loadAllGardens. -/
  loadAllGardensFetch (st1 : Storage (List OSMWay)) (now2 : ℤ)
      (fetchResult : Except String OSMResponse) :
      List OSMWay × Storage (List OSMWay) :=
    match fetchResult with
    | .ok data =>
      let gardens := data.elements
      if gardens.length > 0 then
        (gardens, setCache st1 now2 ALL_GARDENS gardens (60 * 60 * 1000))
      else (gardens, st1)
    | .error _ =>
      let stale := getFromCache st1 now2 ALL_GARDENS
      match stale.1 with
      | some s => if s.length > 0 then (s, stale.2) else ([], stale.2)
      | none => ([], stale.2)

/-- The changed-data check of loadAllGardensWithUpdate (osm.ts 615-616):
`updatedGardens.length !== cached.length || updatedGardens.some((g, i) =>
!cached[i] || cached[i].id !== g.id)` - lengths and positional ids only. -/
def regionUpdateFires (cached updated : List OSMWay) : Bool :=
  decide (updated.length ≠ cached.length) ||
    updated.enum.any fun gi =>
      match cached[gi.1]? with
      | none => true
      | some c => decide (c.id ≠ gi.2.id)

/-- loadAllGardensWithUpdate (osm.ts 603-627), sequentialised like
searchGardenByNumberWithUpdate; the snapshot defaults to the empty list. -/
def loadAllGardensWithUpdate (st : Storage (List OSMWay)) (now0 now1 now2 : ℤ)
    (fetchResult : Except String OSMResponse) :
    List OSMWay × Bool × Option (List OSMWay) :=
  let read := getFromCache st now0 ALL_GARDENS
  let cached := read.1.getD []
  let background := loadAllGardens read.2 now1 now2 false fetchResult
  let fired := regionUpdateFires cached background.1
  (cached, fired, if fired then some background.1 else none)

/-! ## osmWayToGarden (src/utils/osm.ts 689-727) -/

/-- Partial Garden record from the static registry (mockData parameter of
osmWayToGarden): every field optional, as in Partial of the TS Garden type. -/
structure MockGarden where
  parcel : Option String := none
  size : Option ℚ := none
  availableFrom : Option String := none
  valuation : Option ℚ := none
  valueReduction : Option ℚ := none
  hasElectricity : Option Bool := none
  waterConnection : Option String := none
deriving DecidableEq, Repr

/-- Garden (src/types/garden.ts), restricted to the fields osmWayToGarden
produces.  osmSize is optional in the TS type, so it stays an Option here;
the merge always fills it. -/
structure Garden where
  id : String
  number : String
  parcel : String
  size : ℚ
  osmSize : Option ℤ
  availableFrom : String
  valuation : ℚ
  valueReduction : ℚ
  hasElectricity : Option Bool
  waterConnection : Option String
  coordinates : Point
  bounds : Point × Point
  osmWayId : ℤ
deriving DecidableEq, Repr

/-- osmWayToGarden (osm.ts 689-727): pure merge of an OSM way with optional
registry data and an optional enclosing-parcel name. -/
def osmWayToGarden (M : JSMath) (osmWay : OSMWay) (mockData : Option MockGarden)
    (enclosingParcel : Option String) : Option Garden :=
  match osmWay.geometry with
  | none => none
  | some geom =>
    if geom.length = 0 then none
    else
      let centerLat := (geom.foldl (fun sum p => sum + p.lat) (0 : ℚ)) / (geom.length : ℚ)
      let centerLon := (geom.foldl (fun sum p => sum + p.lon) (0 : ℚ)) / (geom.length : ℚ)
      let lats := geom.map (·.lat)
      let lons := geom.map (·.lon)
      let minLat := listMin lats
      let maxLat := listMax lats
      let minLon := listMin lons
      let maxLon := listMax lons
      let calculatedSize := calculatePolygonArea M geom
      let parcel := jsOrString enclosingParcel
        (jsOrString (mockData.bind (·.parcel)) "")
      some
        { id := "garden-" ++ toString osmWay.id
          number := jsOrString (tagLookup osmWay.tags "ref") ""
          parcel := parcel
          size := jsOrNum (mockData.bind (·.size)) 0
          osmSize := some calculatedSize
          availableFrom := jsOrString (mockData.bind (·.availableFrom)) ""
          valuation := jsOrNum (mockData.bind (·.valuation)) 0
          valueReduction := jsOrNum (mockData.bind (·.valueReduction)) 0
          hasElectricity := mockData.bind (·.hasElectricity)
          waterConnection := mockData.bind (·.waterConnection)
          coordinates := ⟨centerLat, centerLon⟩
          bounds := (⟨minLat, minLon⟩, ⟨maxLat, maxLon⟩)
          osmWayId := osmWay.id }

/-! ## Resilient query client (src/utils/osm.ts 64-135) -/

/-- Outcome of one fetch attempt against one server: a successful response
body, a non-ok HTTP status, an AbortError raised by the timeout, or any
other thrown error. -/
inductive FetchOutcome where
  | ok (body : String)
  | httpStatus (code : ℕ)
  | abortError
  | fetchError (msg : String)
deriving DecidableEq, Repr

/-- Observable events of a fetchOverpassAPI run: one entry per started
attempt, and one entry per backoff wait with its duration in ms. -/
inductive Ev where
  | attempt (server : String) (idx : ℕ)
  | backoff (ms : ℚ)
deriving DecidableEq, Repr

/-- The error message `Overpass API error: {status}` built at osm.ts 111/115
(the statusText suffix is omitted in the model). -/
def statusMsg (code : ℕ) : String := "Overpass API error: " ++ toString code

/-- The per-server retry loop of fetchOverpassAPI (osm.ts 74-130).  fuel is
the number of attempts still allowed (initially maxRetries), attempt the
attempt counter, lastErr the lastError variable.  Returns (payload on
success, lastError afterwards, event trace). -/
def attemptLoop (respond : String → ℕ → FetchOutcome) (server : String)
    (maxRetries : ℕ) (retryDelay : ℚ) :
    ℕ → ℕ → Option String → Option String × Option String × List Ev
  | 0, _, lastErr => (none, lastErr, [])
  | fuel + 1, attempt, lastErr =>
    match respond server attempt with
    | .ok body => (some body, lastErr, [.attempt server attempt])
    | .httpStatus code =>
      if code = 504 ∨ code = 503 then
        if attempt < maxRetries - 1 then
          let d := retryDelay * 2 ^ attempt
          let res := attemptLoop respond server maxRetries retryDelay fuel (attempt + 1) lastErr
          (res.1, res.2.1, .attempt server attempt :: .backoff d :: res.2.2)
        else (none, some (statusMsg code), [.attempt server attempt])
      else (none, some (statusMsg code), [.attempt server attempt])
    | .abortError =>
      if attempt < maxRetries - 1 then
        let d := retryDelay * 2 ^ attempt
        let res := attemptLoop respond server maxRetries retryDelay fuel (attempt + 1) lastErr
        (res.1, res.2.1, .attempt server attempt :: .backoff d :: res.2.2)
      else (none, some "AbortError", [.attempt server attempt])
    | .fetchError msg => (none, some msg, [.attempt server attempt])

/-- The outer server-fallback loop of fetchOverpassAPI (osm.ts 72-134),
ending in `throw lastError || new Error(...)`. -/
def serverLoop (respond : String → ℕ → FetchOutcome) (maxRetries : ℕ)
    (retryDelay : ℚ) :
    List String → Option String → Except String String × List Ev
  | [], lastErr => (.error (lastErr.getD "Overpass API: All servers failed"), [])
  | s :: rest, lastErr =>
    let r := attemptLoop respond s maxRetries retryDelay maxRetries 0 lastErr
    match r.1 with
    | some body => (.ok body, r.2.2)
    | none =>
      let tail := serverLoop respond maxRetries retryDelay rest r.2.1
      (tail.1, r.2.2 ++ tail.2)

/-- fetchOverpassAPI (osm.ts 64-135) over an explicit endpoint list
(the source closes over OVERPASS_API_SERVERS). -/
def fetchOverpassAPI (servers : List String) (respond : String → ℕ → FetchOutcome)
    (maxRetries : ℕ) (retryDelay : ℚ) : Except String String × List Ev :=
  serverLoop respond maxRetries retryDelay servers none

/-- The fixed endpoint list OVERPASS_API_SERVERS (osm.ts 30-35). -/
def OVERPASS_API_SERVERS : List String :=
  ["https://overpass-api.de/api/interpreter",
   "https://overpass.kumi.systems/api/interpreter",
   "https://overpass.openstreetmap.ru/api/interpreter",
   "https://overpass-api.openstreetmap.fr/api/interpreter"]

/-! ## Spec-side definitions

These follow the wording of the specification and are compared against the
definitions translated from the source. -/

/-- Written from the spec wording for polygon area: auto-close the ring when
first and last vertex differ, accumulate
`(lon[j]-lon[i]) * (2 + sin(lat[i]) + sin(lat[j]))` over consecutive vertex
pairs with indices modulo the closed ring length, take the absolute sum
times R squared over 2; when that value is below 1 use the planar
bounding-box approximation; round to the nearest integer; fewer than 3
vertices give 0. -/
def specPolygonArea (M : JSMath) (ring : List Point) : ℤ :=
  if ring.length < 3 then 0
  else
    let closed :=
      if ring.headD pzero = ring.getLastD pzero then ring else ring ++ [ring.headD pzero]
    let s := cyclicSum M closed
    let spherical := |s| * R * R / 2
    if spherical < 1 then
      let lats := ring.map (·.lat)
      let lons := ring.map (·.lon)
      let latDiff := (listMax lats - listMin lats) * M.pi / 180
      let lonDiff := (listMax lons - listMin lons) * M.pi / 180
      let avgLat := ((listMin lats + listMax lats) / 2) * M.pi / 180
      jsRound (R * R * latDiff * lonDiff * M.cos avgLat)
    else jsRound spherical

/-- Written from the spec wording for a material change of a single plot
between the cached snapshot and the fresh fetch result: different
identifier, different geometry by deep comparison, or a previously present
result disappearing (a result appearing where none was cached is a changed
identifier). -/
def specMaterialChangeSingle (cached updated : Option OSMWay) : Bool :=
  match cached, updated with
  | none, none => false
  | none, some _ => true
  | some _, none => true
  | some c, some u => decide (c.id ≠ u.id) || decide (c.geometry ≠ u.geometry)

/-- Written from the spec wording for a material change of the region
collection: a length change (results appearing or disappearing), or at some
position a different identifier or a geometry that differs by deep
comparison. -/
def specMaterialChangeRegion (cached updated : List OSMWay) : Bool :=
  decide (cached.length ≠ updated.length) ||
    (cached.zip updated).any fun cu =>
      decide (cu.1.id ≠ cu.2.id) || decide (cu.1.geometry ≠ cu.2.geometry)

/-- Expected trace of a server that answers 503/504 on every attempt:
attempts a, a+1, ..., a+k-1 with a backoff wait after each non-final one. -/
def exhaustTrace (server : String) (retryDelay : ℚ) (a k : ℕ) : List Ev :=
  (List.range' a (k - 1)).flatMap
    (fun i => [.attempt server i, .backoff (retryDelay * 2 ^ i)]) ++
    [.attempt server (a + k - 1)]

/-- A concrete interpretation of the JS Math parameters used by witnesses
and counterexamples: sin 0, cos 1, log2 0, pi 3.  Any interpretation would
do for the universally quantified theorems; this one also agrees with the
real cos at 0, where the counterexamples evaluate it. -/
def M0 : JSMath := ⟨fun _ => 0, fun _ => 1, fun _ => 0, 3⟩

/-- Concrete way used by witnesses: plot 1050 with a one-point geometry. -/
def w1050 : OSMWay := ⟨1, [], some [⟨52, 8⟩], [("ref", "1050")]⟩

/-- The same way with a different geometry (same id), used to exhibit a
material geometry-only change. -/
def w1050' : OSMWay := ⟨1, [], some [⟨52, 8⟩, ⟨52, 9⟩], [("ref", "1050")]⟩

/-- Registry record with parcel X and nothing else, used by witnesses. -/
def mockX : MockGarden := ⟨some "X", none, none, none, none, none, none⟩

/-! ## Helper lemmas: cyclic edge sums -/

theorem edgeTerm_self (M : JSMath) (p : Point) : edgeTerm M p p = 0 := by
  simp [edgeTerm]

theorem foldl_range_add (g : ℕ → ℚ) (n : ℕ) :
    (List.range n).foldl (fun acc i => acc + g i) 0 = ∑ i ∈ Finset.range n, g i := by
  induction n with
  | zero => rfl
  | succ n ih =>
    rw [List.range_succ, List.foldl_append, ih]
    simp [Finset.sum_range_succ]

theorem getD_dropLast (l : List Point) (i : ℕ) (h : i < l.length - 1) :
    l.dropLast.getD i pzero = l.getD i pzero := by
  rw [List.getD_eq_getElem _ _ (by simpa [List.length_dropLast] using h),
    List.getD_eq_getElem _ _ (by omega)]
  exact List.getElem_dropLast ..

/-- The code loop of calculatePolygonArea computes the cyclic edge sum of
the closed coordinate list without its final (duplicate) vertex. -/
theorem ringSum_eq_cyclicSum_dropLast (M : JSMath) (c : List Point) :
    ringSum M c = cyclicSum M c.dropLast := by
  unfold ringSum cyclicSum
  rw [foldl_range_add (fun i =>
    edgeTerm M (c.getD i pzero) (c.getD ((i + 1) % (c.length - 1)) pzero))]
  rw [List.length_dropLast]
  refine Finset.sum_congr rfl fun i hi => ?_
  rw [Finset.mem_range] at hi
  have h1 : (i + 1) % (c.length - 1) < c.length - 1 := Nat.mod_lt _ (by omega)
  rw [getD_dropLast c i hi, getD_dropLast c _ h1]

theorem getD_concat_left (l : List Point) (a : Point) (i : ℕ) (h : i < l.length) :
    (l ++ [a]).getD i pzero = l.getD i pzero :=
  List.getD_append l [a] pzero i h

theorem getD_concat_length (l : List Point) (a : Point) :
    (l ++ [a]).getD l.length pzero = a := by
  rw [List.getD_append_right l [a] pzero l.length le_rfl]
  simp

/-- Appending a copy of the head to a nonempty list does not change its
cyclic edge sum: the two new edges replace the old wrap-around edge by the
same displacement plus a degenerate zero edge. -/
theorem cyclicSum_concat_head (M : JSMath) (a : Point) (t : List Point) :
    cyclicSum M ((a :: t) ++ [a]) = cyclicSum M (a :: t) := by
  set l := a :: t with hl
  have hm : 0 < l.length := by simp [hl]
  unfold cyclicSum
  rw [show (l ++ [a]).length = l.length + 1 by simp]
  rw [Finset.sum_range_succ]
  have hlast : (l ++ [a]).getD l.length pzero = a := getD_concat_length l a
  have hwrap : (l.length + 1) % (l.length + 1) = 0 := Nat.mod_self _
  have hzero : (l ++ [a]).getD 0 pzero = a := by
    rw [getD_concat_left l a 0 hm]; simp [hl]
  rw [hwrap, hlast, hzero, edgeTerm_self, add_zero]
  refine Finset.sum_congr rfl fun i hi => ?_
  rw [Finset.mem_range] at hi
  have hmod : (i + 1) % (l.length + 1) = i + 1 := Nat.mod_eq_of_lt (by omega)
  rw [hmod, getD_concat_left l a i hi]
  rcases Nat.lt_or_ge (i + 1) l.length with h2 | h2
  · rw [getD_concat_left l a (i + 1) h2, Nat.mod_eq_of_lt h2]
  · have hieq : i + 1 = l.length := by omega
    rw [hieq, getD_concat_length l a, Nat.mod_self]
    simp [hl]

/-- Rotating a list by one position preserves its cyclic edge sum. -/
theorem cyclicSum_rotate_one (M : JSMath) (l : List Point) :
    cyclicSum M (l.rotate 1) = cyclicSum M l := by
  match l with
  | [] => simp [List.rotate_nil]
  | a :: t =>
    have hrot : (a :: t).rotate 1 = t ++ [a] := by
      have := List.rotate_cons_succ t a 0
      simpa using this
    rw [hrot]
    unfold cyclicSum
    have hlen : (t ++ [a]).length = t.length + 1 := by simp
    have hlen2 : (a :: t).length = t.length + 1 := by simp
    rw [hlen, hlen2, Finset.sum_range_succ, Finset.sum_range_succ']
    have hE0 : (t ++ [a]).getD 0 pzero =
        (a :: t).getD (1 % (t.length + 1)) pzero := by
      match t with
      | [] => simp
      | b :: t2 =>
        have h1 : 1 % (t2.length + 1 + 1) = 1 := Nat.mod_eq_of_lt (by omega)
        simp [h1]
    have hlast : (t ++ [a]).getD t.length pzero = a := getD_concat_length t a
    rw [Nat.mod_self, hlast, hE0]
    congr 1
    refine Finset.sum_congr rfl fun i hi => ?_
    rw [Finset.mem_range] at hi
    have hm1 : (i + 1) % (t.length + 1) = i + 1 := Nat.mod_eq_of_lt (by omega)
    rw [hm1, getD_concat_left t a i hi]
    have hcons : (a :: t).getD (i + 1) pzero = t.getD i pzero := by simp
    rw [hcons]
    rcases Nat.lt_or_ge (i + 1) t.length with h2 | h2
    · have hm2 : (i + 1 + 1) % (t.length + 1) = i + 2 := Nat.mod_eq_of_lt (by omega)
      rw [getD_concat_left t a (i + 1) h2, hm2]
      simp
    · have hieq : i + 1 = t.length := by omega
      rw [hieq, getD_concat_length t a, Nat.mod_self]
      simp

/-- Rotating a list preserves its cyclic edge sum. -/
theorem cyclicSum_rotate (M : JSMath) (l : List Point) (k : ℕ) :
    cyclicSum M (l.rotate k) = cyclicSum M l := by
  induction k with
  | zero => rw [List.rotate_zero]
  | succ k ih => rw [← List.rotate_rotate, cyclicSum_rotate_one, ih]

/-! ## Helper lemmas: Math.min / Math.max over argument lists -/

theorem foldl_min_min (x y : ℚ) (t : List ℚ) :
    t.foldl min (min x y) = min x (t.foldl min y) := by
  induction t generalizing y with
  | nil => rfl
  | cons c t ih =>
    simp only [List.foldl_cons]
    rw [min_assoc, ih]

theorem foldl_max_max (x y : ℚ) (t : List ℚ) :
    t.foldl max (max x y) = max x (t.foldl max y) := by
  induction t generalizing y with
  | nil => rfl
  | cons c t ih =>
    simp only [List.foldl_cons]
    rw [max_assoc, ih]

theorem foldl_min_le (t : List ℚ) (x : ℚ) : t.foldl min x ≤ x := by
  induction t generalizing x with
  | nil => exact le_rfl
  | cons c t ih =>
    simp only [List.foldl_cons]
    exact le_trans (ih (min x c)) (min_le_left x c)

theorem le_foldl_max (t : List ℚ) (x : ℚ) : x ≤ t.foldl max x := by
  induction t generalizing x with
  | nil => exact le_rfl
  | cons c t ih =>
    simp only [List.foldl_cons]
    exact le_trans (le_max_left x c) (ih (max x c))

theorem listMin_rotate_one (l : List ℚ) : listMin (l.rotate 1) = listMin l := by
  match l with
  | [] => simp [List.rotate_nil]
  | a :: t =>
    have hrot : (a :: t).rotate 1 = t ++ [a] := by
      have := List.rotate_cons_succ t a 0
      simpa using this
    rw [hrot]
    match t with
    | [] => rfl
    | c :: t2 =>
      have e1 : listMin (c :: (t2 ++ [a])) = (t2 ++ [a]).foldl min c := rfl
      have e2 : listMin (a :: c :: t2) = (c :: t2).foldl min a := rfl
      rw [List.cons_append, e1, e2, List.foldl_append]
      simp only [List.foldl_cons, List.foldl_nil]
      rw [foldl_min_min, min_comm a (t2.foldl min c)]

theorem listMax_rotate_one (l : List ℚ) : listMax (l.rotate 1) = listMax l := by
  match l with
  | [] => simp [List.rotate_nil]
  | a :: t =>
    have hrot : (a :: t).rotate 1 = t ++ [a] := by
      have := List.rotate_cons_succ t a 0
      simpa using this
    rw [hrot]
    match t with
    | [] => rfl
    | c :: t2 =>
      have e1 : listMax (c :: (t2 ++ [a])) = (t2 ++ [a]).foldl max c := rfl
      have e2 : listMax (a :: c :: t2) = (c :: t2).foldl max a := rfl
      rw [List.cons_append, e1, e2, List.foldl_append]
      simp only [List.foldl_cons, List.foldl_nil]
      rw [foldl_max_max, max_comm a (t2.foldl max c)]

theorem listMin_rotate (l : List ℚ) (k : ℕ) : listMin (l.rotate k) = listMin l := by
  induction k with
  | zero => rw [List.rotate_zero]
  | succ k ih => rw [← List.rotate_rotate, listMin_rotate_one, ih]

theorem listMax_rotate (l : List ℚ) (k : ℕ) : listMax (l.rotate k) = listMax l := by
  induction k with
  | zero => rw [List.rotate_zero]
  | succ k ih => rw [← List.rotate_rotate, listMax_rotate_one, ih]

theorem listMin_concat_head (b : ℚ) (t : List ℚ) :
    listMin ((b :: t) ++ [b]) = listMin (b :: t) := by
  have e1 : listMin (b :: (t ++ [b])) = (t ++ [b]).foldl min b := rfl
  have e2 : listMin (b :: t) = t.foldl min b := rfl
  show listMin (b :: (t ++ [b])) = listMin (b :: t)
  rw [e1, e2, List.foldl_append]
  simp only [List.foldl_cons, List.foldl_nil]
  exact min_eq_left (foldl_min_le t b)

theorem listMax_concat_head (b : ℚ) (t : List ℚ) :
    listMax ((b :: t) ++ [b]) = listMax (b :: t) := by
  have e1 : listMax (b :: (t ++ [b])) = (t ++ [b]).foldl max b := rfl
  have e2 : listMax (b :: t) = t.foldl max b := rfl
  show listMax (b :: (t ++ [b])) = listMax (b :: t)
  rw [e1, e2, List.foldl_append]
  simp only [List.foldl_cons, List.foldl_nil]
  exact max_eq_left (le_foldl_max t b)

/-! ## Helper lemmas: ring closing -/

theorem point_eq_iff (p q : Point) : (p.lat = q.lat ∧ p.lon = q.lon) ↔ p = q := by
  cases p; cases q; simp

/-- The componentwise first-last comparison of the source coincides with
point equality. -/
theorem closeRing_eq (g : List Point) :
    closeRing g =
      if g.headD pzero = g.getLastD pzero then g else g ++ [g.headD pzero] := by
  unfold closeRing
  simp only [point_eq_iff]

/-- A closed list (head equal to last) has the cyclic edge sum of its
dropLast: the final duplicate contributes one relocated edge and one
degenerate zero edge. -/
theorem cyclicSum_dropLast_closed (M : JSMath) (g : List Point) (hne : g ≠ [])
    (hcl : g.headD pzero = g.getLastD pzero) :
    cyclicSum M g.dropLast = cyclicSum M g := by
  match g with
  | [x] =>
    show cyclicSum M [] = cyclicSum M [x]
    simp [cyclicSum, edgeTerm_self]
  | a :: b :: t =>
    have h1 : (a :: b :: t).getLastD pzero = (a :: b :: t).getLast (by simp) := by
      rw [List.getLastD_eq_getLast?, List.getLast?_eq_getLast _ (by simp)]
      rfl
    have hlast : (a :: b :: t).getLast (by simp) = a := by
      rw [← h1, ← hcl]
      rfl
    have hdecomp : (a :: b :: t).dropLast ++ [a] = a :: b :: t := by
      have h3 := List.dropLast_append_getLast (l := a :: b :: t) (by simp)
      rwa [hlast] at h3
    have hdl : (a :: b :: t).dropLast = a :: (b :: t).dropLast := by
      simp
    have h4 := cyclicSum_concat_head M a ((b :: t).dropLast)
    rw [← hdl] at h4
    rw [hdecomp] at h4
    exact h4.symm

/-- Closing a nonempty ring does not change its cyclic edge sum. -/
theorem cyclicSum_closeRing (M : JSMath) (g : List Point) (hne : g ≠ []) :
    cyclicSum M (closeRing g) = cyclicSum M g := by
  rw [closeRing_eq]
  by_cases h : g.headD pzero = g.getLastD pzero
  · rw [if_pos h]
  · rw [if_neg h]
    match g with
    | a :: t => exact cyclicSum_concat_head M a t

/-- The closed ring produced by closeRing has equal head and last. -/
theorem closeRing_head_last (g : List Point) (hne : g ≠ []) :
    (closeRing g).headD pzero = (closeRing g).getLastD pzero := by
  rw [closeRing_eq]
  by_cases h : g.headD pzero = g.getLastD pzero
  · rw [if_pos h]; exact h
  · rw [if_neg h]
    match g with
    | a :: t =>
      have hh : (a :: t).headD pzero = a := rfl
      rw [hh]
      have h1 : ((a :: t) ++ [a]).headD pzero = a := by
        rw [List.cons_append]
        rfl
      have h2 : ((a :: t) ++ [a]).getLastD pzero = a := by
        rw [List.getLastD_eq_getLast?, List.getLast?_eq_getLast _ (by simp)]
        simp
      rw [h1, h2]

theorem closeRing_ne_nil (g : List Point) (hne : g ≠ []) : closeRing g ≠ [] := by
  rw [closeRing_eq]
  by_cases h : g.headD pzero = g.getLastD pzero
  · rwa [if_pos h]
  · rw [if_neg h]
    simp

/-- The area loop of the source computes exactly the cyclic edge sum of the
original ring. -/
theorem ringSum_closeRing (M : JSMath) (g : List Point) (hne : g ≠ []) :
    ringSum M (closeRing g) = cyclicSum M g := by
  rw [ringSum_eq_cyclicSum_dropLast,
    cyclicSum_dropLast_closed M (closeRing g) (closeRing_ne_nil g hne)
      (closeRing_head_last g hne),
    cyclicSum_closeRing M g hne]

theorem abs_mul_RR_div2 (x : ℚ) : |x * R * R / 2| = |x| * R * R / 2 := by
  rw [abs_div, abs_mul, abs_mul]
  norm_num [R]

/-- Claim C3: calculatePolygonArea computes, for every ring of at least 3
vertices, the spherical-excess formula over the auto-closed ring
(consecutive vertex pairs, indices modulo ring length, angles in radians,
Earth radius 6371000 m, absolute half sum times R squared), with the planar
bounding-box fallback R^2 * dLat * dLon * cos(avgLat) when that value is
below 1, rounded to the nearest integer; fewer than 3 vertices give 0.
Stated as equality with specPolygonArea, the formula written from the spec
wording, for every interpretation of the transcendental functions. -/
theorem C3_calculatePolygonArea_matches_spec (M : JSMath) (ring : List Point) :
    calculatePolygonArea M ring = specPolygonArea M ring := by
  simp only [calculatePolygonArea, specPolygonArea]
  by_cases h3 : ring.length < 3
  · rw [if_pos h3, if_pos h3]
  · rw [if_neg h3, if_neg h3]
    have hne : ring ≠ [] := by
      intro h
      subst h
      simp at h3
    have e1 : ringSum M (closeRing ring) = cyclicSum M ring :=
      ringSum_closeRing M ring hne
    have e2 : cyclicSum M
        (if ring.headD pzero = ring.getLastD pzero then ring
         else ring ++ [ring.headD pzero]) = cyclicSum M ring := by
      rw [← closeRing_eq]
      exact cyclicSum_closeRing M ring hne
    rw [e1, e2, abs_mul_RR_div2]

theorem listMin_concat_headD (xs : List ℚ) (hne : xs ≠ []) :
    listMin (xs ++ [xs.headD 0]) = listMin xs := by
  match xs with
  | b :: t => exact listMin_concat_head b t

theorem listMax_concat_headD (xs : List ℚ) (hne : xs ≠ []) :
    listMax (xs ++ [xs.headD 0]) = listMax xs := by
  match xs with
  | b :: t => exact listMax_concat_head b t

/-- Claim C9, amended: rotation invariance of calculatePolygonArea holds
exactly for every ring and every rotation; removal of the closing duplicate
preserves the value for every closed ring of at least 4 vertices (the claim
fails only for a degenerate 3-vertex closed ring, whose duplicate-free form
has fewer than 3 vertices: see the counterexample). -/
theorem C9_area_rotation_closure_amended :
    (∀ (M : JSMath) (g : List Point) (k : ℕ),
      calculatePolygonArea M (g.rotate k) = calculatePolygonArea M g) ∧
    (∀ (M : JSMath) (g : List Point), 4 ≤ g.length →
      g.headD pzero = g.getLastD pzero →
      calculatePolygonArea M g = calculatePolygonArea M g.dropLast) := by
  constructor
  · intro M g k
    simp only [calculatePolygonArea]
    rw [List.length_rotate]
    by_cases h3 : g.length < 3
    · rw [if_pos h3, if_pos h3]
    · rw [if_neg h3, if_neg h3]
      have hne : g ≠ [] := by
        intro h; subst h; simp at h3
      have hner : g.rotate k ≠ [] := by
        intro h
        have := congrArg List.length h
        rw [List.length_rotate] at this
        exact hne (List.length_eq_zero.mp this)
      have hsum : ringSum M (closeRing (g.rotate k)) = ringSum M (closeRing g) := by
        rw [ringSum_closeRing M _ hner, ringSum_closeRing M g hne]
        exact cyclicSum_rotate M g k
      have hlat : (g.rotate k).map (·.lat) = (g.map (·.lat)).rotate k :=
        List.map_rotate _ g k
      have hlon : (g.rotate k).map (·.lon) = (g.map (·.lon)).rotate k :=
        List.map_rotate _ g k
      rw [hsum, hlat, hlon, listMin_rotate, listMax_rotate, listMin_rotate,
        listMax_rotate]
  · intro M g h4 hcl
    simp only [calculatePolygonArea]
    have hlen : g.dropLast.length = g.length - 1 := List.length_dropLast g
    have h3 : ¬ g.length < 3 := by omega
    have h3d : ¬ g.dropLast.length < 3 := by omega
    rw [if_neg h3, if_neg h3d]
    have hne : g ≠ [] := by
      intro h; subst h; simp at h4
    have hned : g.dropLast ≠ [] := by
      intro h
      have := congrArg List.length h
      simp [hlen] at this
      omega
    have hsum : ringSum M (closeRing g) = ringSum M (closeRing g.dropLast) := by
      rw [ringSum_closeRing M g hne, ringSum_closeRing M _ hned]
      exact (cyclicSum_dropLast_closed M g hne hcl).symm
    have hheadd : g.dropLast.headD pzero = g.headD pzero := by
      match g, hned with
      | a :: b :: t, _ =>
        have : (a :: b :: t).dropLast = a :: (b :: t).dropLast := by simp
        rw [this]
        rfl
    have hdecomp : g.dropLast ++ [g.dropLast.headD pzero] = g := by
      rw [hheadd]
      match g, hne with
      | a :: b :: t, _ =>
        have h1 : (a :: b :: t).getLastD pzero = (a :: b :: t).getLast (by simp) := by
          rw [List.getLastD_eq_getLast?, List.getLast?_eq_getLast _ (by simp)]
          rfl
        have hlast : (a :: b :: t).getLast (by simp) = a := by
          rw [← h1, ← hcl]
          rfl
        have h5 := List.dropLast_append_getLast (l := a :: b :: t) (by simp)
        rwa [hlast] at h5
    have hmaplat : g.map (·.lat) = g.dropLast.map (·.lat) ++ [(g.dropLast.map (·.lat)).headD 0] := by
      conv_lhs => rw [← hdecomp]
      rw [List.map_append]
      congr 1
      match g.dropLast, hned with
      | a :: t, _ => rfl
    have hmaplon : g.map (·.lon) = g.dropLast.map (·.lon) ++ [(g.dropLast.map (·.lon)).headD 0] := by
      conv_lhs => rw [← hdecomp]
      rw [List.map_append]
      congr 1
      match g.dropLast, hned with
      | a :: t, _ => rfl
    have hmapne1 : g.dropLast.map (·.lat) ≠ [] := by
      match g.dropLast, hned with
      | a :: t, _ => simp
    have hmapne2 : g.dropLast.map (·.lon) ≠ [] := by
      match g.dropLast, hned with
      | a :: t, _ => simp
    rw [hsum, hmaplat, hmaplon, listMin_concat_headD _ hmapne1,
      listMax_concat_headD _ hmapne1, listMin_concat_headD _ hmapne2,
      listMax_concat_headD _ hmapne2]

/-- Claim C9 witness: the amended theorem applied to the concrete closed
square ring (0,0),(0,1),(1,1),(0,0) and to a rotation of its open form. -/
theorem C9_witness :
    calculatePolygonArea M0 [⟨0,0⟩, ⟨0,1⟩, ⟨1,1⟩, ⟨0,0⟩] =
      calculatePolygonArea M0 ([⟨0,0⟩, ⟨0,1⟩, ⟨1,1⟩, ⟨0,0⟩] : List Point).dropLast ∧
    calculatePolygonArea M0 (([⟨0,0⟩, ⟨0,1⟩, ⟨1,1⟩] : List Point).rotate 1) =
      calculatePolygonArea M0 [⟨0,0⟩, ⟨0,1⟩, ⟨1,1⟩] :=
  ⟨C9_area_rotation_closure_amended.2 M0 _ (by decide) (by decide),
   C9_area_rotation_closure_amended.1 M0 _ 1⟩

unseal Rat.add Rat.mul Rat.inv Rat.sub in
/-- Claim C9 counterexample: closure idempotence fails as stated.  For the
degenerate closed 3-vertex ring (-1,0),(1,2),(-1,0) the code returns the
planar bounding-box fallback (45099601111 with cos interpreted as 1 at the
average latitude 0, agreeing with the real cosine), while the ring with the
closing duplicate removed has fewer than 3 vertices and returns 0. -/
theorem C9_counterexample :
    ¬ (calculatePolygonArea M0 [⟨-1,0⟩, ⟨1,2⟩, ⟨-1,0⟩] =
       calculatePolygonArea M0 [⟨-1,0⟩, ⟨1,2⟩]) := by
  decide

/-- Claim C6, amended: calculateGeometryCenter does filter invalid
coordinates before use (pre-filtering the input changes nothing) and
degrades to null on empty or all-invalid input; but the claim is false for
the other geometry consumers: calculatePolygonArea and osmWayToGarden use
the raw point list (see the counterexample). -/
theorem C6_centroid_filtering_amended :
    (∀ g : List Point,
      calculateGeometryCenter (g.filter fun p => isValidCoordinate p.lat p.lon) =
        calculateGeometryCenter g) ∧
    (∀ g : List Point,
      (g.filter fun p => isValidCoordinate p.lat p.lon) = [] →
      calculateGeometryCenter g = none) := by
  have hidem : ∀ g : List Point,
      ((g.filter fun p => isValidCoordinate p.lat p.lon).filter
        fun p => isValidCoordinate p.lat p.lon) =
        g.filter fun p => isValidCoordinate p.lat p.lon := by
    intro g
    rw [List.filter_filter]
    simp
  constructor
  · intro g
    simp only [calculateGeometryCenter, hidem]
    by_cases hf : (g.filter fun p => isValidCoordinate p.lat p.lon).length = 0
    · simp [hf]
    · have hg : ¬ g.length = 0 := by
        intro h
        have : g = [] := List.length_eq_zero.mp h
        subst this
        simp at hf
      simp [hf, hg]
  · intro g hF
    simp only [calculateGeometryCenter, hF]
    simp

unseal Rat.add Rat.mul Rat.inv Rat.sub in
/-- Claim C6 counterexample: calculatePolygonArea is a geometry-consuming
function that does not filter invalid coordinates.  On a ring containing
the invalid point (lat 100, lon 0) it returns the bounding-box fallback
computed from the invalid latitude, not the value of the filtered ring. -/
theorem C6_counterexample :
    calculatePolygonArea M0 [⟨100,0⟩, ⟨0,0⟩, ⟨0,1⟩] ≠
      calculatePolygonArea M0
        (([⟨100,0⟩, ⟨0,0⟩, ⟨0,1⟩] : List Point).filter
          fun p => isValidCoordinate p.lat p.lon) := by
  decide

/-- Claim C6 witness: the amended theorem applied to a concrete all-invalid
geometry. -/
theorem C6_witness : calculateGeometryCenter [⟨100, 0⟩] = none :=
  C6_centroid_filtering_amended.2 _ (by decide)

/-- Claim C8: for every bounding box with positive latitude and longitude
span and every viewport size and padding, the optimal zoom equals
floor(min(log2(availH*360/(dLat*256)), log2(availW*360/(dLon*256*cos(avgLat)))))
clamped to [10, 22], where availW/availH are the viewport dimensions minus
twice the padding and the longitude term carries the cos(latitude)
correction; for every interpretation of log2, cos and pi. -/
theorem C8_optimal_zoom_formula (M : JSMath) (minLat minLon maxLat maxLon w h p : ℚ)
    (_hLat : 0 < maxLat - minLat) (_hLon : 0 < maxLon - minLon) :
    calculateOptimalZoom M (⟨minLat, minLon⟩, ⟨maxLat, maxLon⟩) w h p =
      max 10 (min 22
        ((⌊min (M.log2 ((h - 2 * p) * 360 / ((maxLat - minLat) * 256)))
            (M.log2 ((w - 2 * p) * 360 /
              ((maxLon - minLon) * 256 *
                M.cos (((minLat + maxLat) / 2) * M.pi / 180))))⌋ : ℤ) : ℚ)) := by
  simp only [calculateOptimalZoom]
  rw [mul_comm p 2]

unseal Rat.sub in
/-- Claim C8 witness: the theorem applied to a concrete one-degree box and
an 800 by 600 viewport with padding 50. -/
theorem C8_witness :
    calculateOptimalZoom M0 (⟨52, 8⟩, ⟨53, 9⟩) 800 600 50 =
      max 10 (min 22
        ((⌊min (M0.log2 ((600 - 2 * 50) * 360 / ((53 - 52) * 256)))
            (M0.log2 ((800 - 2 * 50) * 360 /
              ((9 - 8) * 256 *
                M0.cos (((52 + 53) / 2) * M0.pi / 180))))⌋ : ℤ) : ℚ)) :=
  C8_optimal_zoom_formula M0 52 8 53 9 800 600 50 (by decide) (by decide)

/-! ## Helper lemmas: cache reads -/

theorem storeGet_storeSet_same {α : Type} (st : Storage α) (k : String)
    (v : CacheEntry α) : storeGet (storeSet st k v) k = some v := by
  simp [storeGet, storeSet]

theorem storeGet_storeRemove_same {α : Type} (st : Storage α) (k : String) :
    storeGet (storeRemove st k) k = none := by
  induction st with
  | nil => rfl
  | cons e t ih =>
    by_cases he : e.1 = k
    · simp only [storeRemove, List.filter, he]
      exact ih
    · simpa [storeRemove, storeGet, List.filter, List.find?, he] using ih

theorem getFromCache_of_valid {α : Type} (st : Storage α) (now : ℤ) (key : String)
    (e : CacheEntry α) (hget : storeGet st (CACHE_PREFIX ++ key) = some e)
    (hval : now - e.timestamp < e.ttl) :
    getFromCache st now key = (some e.data, st) := by
  unfold getFromCache
  rw [hget]
  simp [isCacheValid, hval]

theorem getFromCache_of_expired {α : Type} (st : Storage α) (now : ℤ) (key : String)
    (e : CacheEntry α) (hget : storeGet st (CACHE_PREFIX ++ key) = some e)
    (hval : e.ttl ≤ now - e.timestamp) :
    getFromCache st now key = (none, storeRemove st (CACHE_PREFIX ++ key)) := by
  unfold getFromCache
  rw [hget]
  simp [isCacheValid, not_lt.mpr hval]

theorem getFromCache_of_missing {α : Type} (st : Storage α) (now : ℤ) (key : String)
    (hget : storeGet st (CACHE_PREFIX ++ key) = none) :
    getFromCache st now key = (none, st) := by
  unfold getFromCache
  rw [hget]

/-- Claim C7: after set(key, value, ttl) at time tset, a get(key) at time
tget returns the value exactly while tget - tset < ttl; once that bound is
reached or exceeded, get evicts the entry and returns absent. -/
theorem C7_cache_set_get_ttl {α : Type} (st : Storage α) (tset tget : ℤ)
    (key : String) (v : α) (ttl : ℤ) :
    (tget - tset < ttl →
      getFromCache (setCache st tset key v ttl) tget key =
        (some v, setCache st tset key v ttl)) ∧
    (ttl ≤ tget - tset →
      (getFromCache (setCache st tset key v ttl) tget key).1 = none ∧
      storeGet (getFromCache (setCache st tset key v ttl) tget key).2
        (CACHE_PREFIX ++ key) = none) := by
  have hget : storeGet (setCache st tset key v ttl) (CACHE_PREFIX ++ key) =
      some ⟨v, tset, ttl⟩ := storeGet_storeSet_same _ _ _
  constructor
  · intro hfresh
    exact getFromCache_of_valid _ tget key _ hget hfresh
  · intro hexp
    rw [getFromCache_of_expired _ tget key _ hget hexp]
    exact ⟨rfl, storeGet_storeRemove_same _ _⟩

/-- Claim C7 witness: a concrete store, ttl 100, a read at offset 50 and a
read at offset 150. -/
theorem C7_witness :
    getFromCache (setCache ([] : Storage Bool) 0 "garden_1050" true 100) 50
        "garden_1050" =
      (some true, setCache ([] : Storage Bool) 0 "garden_1050" true 100) ∧
    (getFromCache (setCache ([] : Storage Bool) 0 "garden_1050" true 100) 150
        "garden_1050").1 = none :=
  ⟨(C7_cache_set_get_ttl [] 0 50 "garden_1050" true 100).1 (by decide),
   ((C7_cache_set_get_ttl [] 0 150 "garden_1050" true 100).2 (by decide)).1⟩

/-- Claim C1, code behaviour at the failing input: with a cache entry for
the garden key that is past its TTL and a fetch that fails (all endpoints
exhausted), searchGardenByNumber returns absent, not the stale geometry.
The leading cache read evicts the expired entry and the catch-path fallback
rereads through the same TTL-checking getFromCache, so no stale value can
ever be delivered; the source comments (osm.ts 492, "auch wenn abgelaufen")
and the claim expect the expired entry to be returned. -/
theorem C1_expired_stale_fallback_returns_none (w : OSMWay) (t0 ttl now1 now2 : ℤ)
    (num emsg : String) (hexp : ttl ≤ now1 - t0) :
    (searchGardenByNumber (setCache [] t0 (gardenKey num) w ttl) now1 now2 num
      false (.error emsg)).1 = none := by
  have hget : storeGet (setCache ([] : Storage OSMWay) t0 (gardenKey num) w ttl)
      (CACHE_PREFIX ++ gardenKey num) = some ⟨w, t0, ttl⟩ :=
    storeGet_storeSet_same _ _ _
  simp [searchGardenByNumber,
    getFromCache_of_expired _ now1 (gardenKey num) _ hget hexp,
    getFromCache_of_missing _ now2 (gardenKey num)
      (storeGet_storeRemove_same _ _)]

/-- Claim C1 witness: the failing input evaluated concretely (entry written
at time 0 with ttl 100, error-path read at time 150). -/
theorem C1_witness :
    (searchGardenByNumber (setCache [] 0 (gardenKey "1050") w1050 100) 150 151
      "1050" false (.error "504")).1 = none :=
  C1_expired_stale_fallback_returns_none w1050 0 100 150 151 "1050" "504" (by decide)

/-- Claim C10: while the cache entry for the plot number is within TTL at
both the foreground read and the background re-read,
searchGardenByNumberWithUpdate returns the cached value, the background
refresh resolves from the same fresh cache entry for every possible network
behaviour, and the changed-data check suppresses the callback. -/
theorem C10_fresh_cache_suppresses_callback (st : Storage OSMWay)
    (now0 now1 now2 : ℤ) (num : String) (fetch : Except String OSMResponse)
    (e : CacheEntry OSMWay)
    (hget : storeGet st (CACHE_PREFIX ++ gardenKey num) = some e)
    (h0 : now0 - e.timestamp < e.ttl) (h1 : now1 - e.timestamp < e.ttl) :
    searchGardenByNumberWithUpdate st now0 now1 now2 num fetch =
      (some e.data, false, none) := by
  simp [searchGardenByNumberWithUpdate, searchGardenByNumber,
    getFromCache_of_valid st now0 (gardenKey num) e hget h0,
    getFromCache_of_valid st now1 (gardenKey num) e hget h1,
    singleUpdateFires]

/-- Claim C10 witness: a concrete fresh entry (written at 0, ttl 100, reads
at 10 and 20) with a network that would fail. -/
theorem C10_witness :
    searchGardenByNumberWithUpdate (setCache [] 0 (gardenKey "1050") w1050 100)
      10 20 21 "1050" (.error "down") = (some w1050, false, none) :=
  C10_fresh_cache_suppresses_callback _ 10 20 21 "1050" _ ⟨w1050, 0, 100⟩
    (storeGet_storeSet_same _ _ _) (by decide) (by decide)

/-- Claim C2, amended: for the findByNumber variant the callback fires if
and only if the fresh result differs materially from the cached snapshot
(different id, different geometry by deep comparison, appearance or
disappearance), exactly as the claim states; for the loadRegion variant the
check is only sound, not complete: every fired callback corresponds to a
material difference, but a geometry-only change with unchanged length and
ids does not fire it (see the counterexample). -/
theorem C2_update_callback_amended :
    (∀ cached updated : Option OSMWay,
      singleUpdateFires cached updated = specMaterialChangeSingle cached updated) ∧
    (∀ cached updated : List OSMWay,
      regionUpdateFires cached updated = true →
      specMaterialChangeRegion cached updated = true) := by
  constructor
  · intro cached updated
    cases cached <;> cases updated <;> rfl
  · intro cached updated h
    simp only [regionUpdateFires, Bool.or_eq_true, decide_eq_true_eq,
      List.any_eq_true] at h
    simp only [specMaterialChangeRegion, Bool.or_eq_true, decide_eq_true_eq,
      List.any_eq_true]
    cases h with
    | inl hl => exact Or.inl (Ne.symm hl)
    | inr hr =>
      obtain ⟨⟨i, g⟩, hmem, hp⟩ := hr
      rw [List.mem_enum_iff_getElem?] at hmem
      by_cases hlen : cached.length = updated.length
      · have hi : i < updated.length := by
          rcases List.getElem?_eq_some.mp hmem with ⟨hh, _⟩
          exact hh
        have hic : i < cached.length := by omega
        have hg : updated[i] = g := by
          rcases List.getElem?_eq_some.mp hmem with ⟨hh, he⟩
          exact he
        rw [List.getElem?_eq_getElem hic] at hp
        simp only [decide_eq_true_eq] at hp
        refine Or.inr ⟨(cached[i], updated[i]), ?_, ?_⟩
        · have hiz : i < (cached.zip updated).length := by
            rw [List.length_zip]
            omega
          have hz : (cached.zip updated)[i] = (cached[i], updated[i]) :=
            List.getElem_zip ..
          exact hz ▸ List.getElem_mem hiz
        · simp [hg, hp]
      · exact Or.inl hlen

/-- Claim C2 counterexample: a cache entry written at 0 with ttl 100, a
foreground read at 50 (fresh, snapshot delivered) and a background refresh
whose cache read happens at 150 (expired): the fetch delivers the same way
id with a different geometry.  The fresh result differs materially from the
snapshot, yet loadAllGardensWithUpdate does not fire the callback, because
the region check compares only lengths and positional ids. -/
theorem C2_counterexample :
    (loadAllGardensWithUpdate (setCache [] 0 ALL_GARDENS [w1050] 100) 50 150 151
        (.ok ⟨[w1050']⟩)).2.1 = false ∧
    (loadAllGardens (setCache [] 0 ALL_GARDENS [w1050] 100) 150 151 false
        (.ok ⟨[w1050']⟩)).1 = [w1050'] ∧
    specMaterialChangeRegion [w1050] [w1050'] = true := by
  decide

/-- Claim C2 witness: the amended soundness direction applied to a concrete
pair where the callback does fire. -/
theorem C2_witness : specMaterialChangeRegion [] [w1050] = true :=
  C2_update_callback_amended.2 [] [w1050] (by decide)

/-- Claim C5: osmWayToGarden is a pure merge returning absent for geometry
with zero vertices; with at least one vertex it returns a record whose
parcel follows the precedence explicit enclosing parcel over registry
parcel over empty string (JS falsy semantics: an absent or empty operand
falls through), whose utility fields stay unknown when the registry does
not supply them, and whose geometry-derived area field is always set, even
when it computes to zero. -/
theorem C5_osmWayToGarden_merge (M : JSMath) (way : OSMWay)
    (mock : Option MockGarden) (encl : Option String) :
    ((way.geometry = none ∨ way.geometry = some []) →
      osmWayToGarden M way mock encl = none) ∧
    (∀ g : List Point, way.geometry = some g → g ≠ [] →
      ∃ garden, osmWayToGarden M way mock encl = some garden ∧
        (∀ s, encl = some s → s ≠ "" → garden.parcel = s) ∧
        ((encl = none ∨ encl = some "") →
          ∀ m p, mock = some m → m.parcel = some p → p ≠ "" →
            garden.parcel = p) ∧
        ((encl = none ∨ encl = some "") →
          (mock = none ∨ ∃ m, mock = some m ∧ (m.parcel = none ∨ m.parcel = some "")) →
          garden.parcel = "") ∧
        ((mock = none ∨ ∃ m, mock = some m ∧ m.hasElectricity = none) →
          garden.hasElectricity = none) ∧
        ((mock = none ∨ ∃ m, mock = some m ∧ m.waterConnection = none) →
          garden.waterConnection = none) ∧
        garden.osmSize = some (calculatePolygonArea M g)) := by
  constructor
  · intro h
    rcases h with h | h <;> simp [osmWayToGarden, h]
  · intro g hg hne
    have hlen : ¬ g.length = 0 := fun h => hne (List.length_eq_zero.mp h)
    simp only [osmWayToGarden, hg]
    rw [if_neg hlen]
    refine ⟨_, rfl, ?_, ?_, ?_, ?_, ?_, rfl⟩
    · intro s hs hsne
      subst hs
      simp [jsOrString, hsne]
    · intro hencl m p hm hp hpne
      subst hm
      rcases hencl with h | h <;> subst h <;> simp [jsOrString, hp, hpne]
    · intro hencl hmock
      have hinner : jsOrString (mock.bind (·.parcel)) "" = "" := by
        rcases hmock with h | ⟨m, hm, hmp⟩
        · subst h; rfl
        · subst hm
          rcases hmp with h | h <;> simp [jsOrString, h]
      rcases hencl with h | h
      · subst h
        exact hinner
      · subst h
        have e : jsOrString (some "") (jsOrString (mock.bind (·.parcel)) "") =
            jsOrString (mock.bind (·.parcel)) "" := by
          simp [jsOrString]
        rw [e]
        exact hinner
    · intro hmock
      rcases hmock with h | ⟨m, hm, hmp⟩
      · subst h; rfl
      · subst hm; simp [hmp]
    · intro hmock
      rcases hmock with h | ⟨m, hm, hmp⟩
      · subst h; rfl
      · subst hm; simp [hmp]

/-- Claim C5 witness: with registry parcel X and enclosing parcel Y the
merge yields parcel Y; with the enclosing parcel omitted it yields X. -/
theorem C5_witness :
    (∃ garden, osmWayToGarden M0 w1050 (some mockX) (some "Y") = some garden ∧
      garden.parcel = "Y") ∧
    (∃ garden, osmWayToGarden M0 w1050 (some mockX) none = some garden ∧
      garden.parcel = "X") := by
  constructor
  · obtain ⟨garden, heq, h1, _⟩ :=
      (C5_osmWayToGarden_merge M0 w1050 (some mockX) (some "Y")).2 [⟨52, 8⟩]
        rfl (by decide)
    exact ⟨garden, heq, h1 "Y" rfl (by decide)⟩
  · obtain ⟨garden, heq, _, h2, _⟩ :=
      (C5_osmWayToGarden_merge M0 w1050 (some mockX) none).2 [⟨52, 8⟩]
        rfl (by decide)
    exact ⟨garden, heq, h2 (Or.inl rfl) mockX "X" rfl rfl (by decide)⟩

/-! ## Helper lemmas: query client -/

theorem attemptLoop_first_ok (respond : String → ℕ → FetchOutcome) (server : String)
    (m : ℕ) (base : ℚ) (fuel a : ℕ) (lastErr : Option String) (body : String)
    (h : respond server a = .ok body) :
    attemptLoop respond server m base (fuel + 1) a lastErr =
      (some body, lastErr, [.attempt server a]) := by
  rw [attemptLoop, h]

theorem attemptLoop_first_hard (respond : String → ℕ → FetchOutcome) (server : String)
    (m : ℕ) (base : ℚ) (fuel a : ℕ) (lastErr : Option String) (code : ℕ)
    (h : respond server a = .httpStatus code) (hc : ¬ (code = 504 ∨ code = 503)) :
    attemptLoop respond server m base (fuel + 1) a lastErr =
      (none, some (statusMsg code), [.attempt server a]) := by
  rw [attemptLoop, h]
  dsimp only
  rw [if_neg hc]

/-- A server that answers 503/504 on every attempt is retried with
exponential backoff until the per-server budget is exhausted, recording the
status message as the last error. -/
theorem attemptLoop_exhaust (respond : String → ℕ → FetchOutcome) (server : String)
    (m : ℕ) (base : ℚ) (code : ℕ)
    (hresp : ∀ i, respond server i = .httpStatus code)
    (hcode : code = 504 ∨ code = 503) :
    ∀ (k a : ℕ) (lastErr : Option String), 1 ≤ k → a + k = m →
      attemptLoop respond server m base k a lastErr =
        (none, some (statusMsg code), exhaustTrace server base a k) := by
  intro k
  induction k with
  | zero => omega
  | succ k ih =>
    intro a lastErr hk ham
    match k, ih with
    | 0, _ =>
      rw [attemptLoop, hresp a]
      dsimp only
      rw [if_pos hcode, if_neg (by omega : ¬ a < m - 1)]
      simp [exhaustTrace]
    | k' + 1, ih =>
      rw [attemptLoop, hresp a]
      dsimp only
      rw [if_pos hcode, if_pos (by omega : a < m - 1)]
      rw [ih (a + 1) lastErr (by omega) (by omega)]
      simp only [exhaustTrace]
      have hr : List.range' a (k' + 1 + 1 - 1) =
          a :: List.range' (a + 1) (k' + 1 - 1) := by
        have : k' + 1 + 1 - 1 = (k' + 1 - 1) + 1 := by omega
        rw [this]
        exact List.range'_succ a (k' + 1 - 1) 1
      rw [hr]
      simp only [List.flatMap_cons]
      have he : a + 1 + (k' + 1) - 1 = a + (k' + 1 + 1) - 1 := by omega
      rw [he]
      rfl

/-- Claim C4: endpoints are tried in fixed order with at most
maxRetriesPerServer attempts each and backoff base * 2^attempt between
retries on 503/504; with endpoint A always answering 503 and endpoint B
answering 200, execute returns the payload of B after exactly
maxRetriesPerServer attempts against A first (the full event trace is
pinned); and when every endpoint fails (A exhausting 503 retries, B
rejected with 404) a single aggregated failure carrying the last observed
error is raised. -/
theorem C4_retry_fallback_ordering (m : ℕ) (base : ℚ) (payload : String)
    (hm : 1 ≤ m) :
    fetchOverpassAPI ["A", "B"]
        (fun s _ => if s = "A" then .httpStatus 503 else .ok payload) m base =
      (.ok payload, exhaustTrace "A" base 0 m ++ [.attempt "B" 0]) ∧
    (fetchOverpassAPI ["A", "B"]
        (fun s _ => if s = "A" then .httpStatus 503 else .httpStatus 404) m
        base).1 = .error (statusMsg 404) := by
  obtain ⟨m', rfl⟩ : ∃ m', m = m' + 1 := ⟨m - 1, by omega⟩
  constructor
  · simp only [fetchOverpassAPI, serverLoop]
    rw [attemptLoop_exhaust _ "A" (m' + 1) base 503 (fun i => if_pos rfl)
      (Or.inr rfl) (m' + 1) 0 none (by omega) (by omega)]
    dsimp only
    rw [attemptLoop_first_ok _ "B" (m' + 1) base m' 0 _ payload
      (if_neg (by decide))]
  · simp only [fetchOverpassAPI, serverLoop]
    rw [attemptLoop_exhaust _ "A" (m' + 1) base 503 (fun i => if_pos rfl)
      (Or.inr rfl) (m' + 1) 0 none (by omega) (by omega)]
    dsimp only
    rw [attemptLoop_first_hard _ "B" (m' + 1) base m' 0 _ 404
      (if_neg (by decide)) (by decide)]
    rfl

/-- Claim C4 witness: the theorem at maxRetries 3 and base delay 1000 ms. -/
theorem C4_witness :
    fetchOverpassAPI ["A", "B"]
        (fun s _ => if s = "A" then .httpStatus 503 else .ok "OK") 3 1000 =
      (.ok "OK", exhaustTrace "A" 1000 0 3 ++ [.attempt "B" 0]) :=
  (C4_retry_fallback_ordering 3 1000 "OK" (by decide)).1

end Scholle
